import Mathlib

/-!
Verification of the `trace` error-translation library (packages `trace` and
`trail`): a shallow embedding of `httplib.go` (HTTP bridge) and the gRPC
bridge (`Send`, `ToGRPC`, `FromGRPC`, `SetDebugInfo`, `DecodeDebugInfo`),
together with the parts of the error core (`errors.go`) that those files
use.  The error core itself is not part of the sources at hand, so its
definitions are modelled from the specification (each such definition says
so in its doc comment).  External library behaviour (Go's `encoding/json`
byte-level parser, `fmt`, the gRPC transport) is modelled explicitly or
taken as a parameter, as noted at each definition.
-/

namespace Trace

/-- Modelled from the spec: the closed set of TypedError kinds
(spec section 3). -/
inductive TypedKind
  | notFound
  | badParameter
  | notImplemented
  | compareFailed
  | accessDenied
  | alreadyExists
  | limitExceeded
  | connectionProblem
  | oauth2
  | retry
  | trust
  deriving DecidableEq

/-- gRPC status codes (google.golang.org/grpc/codes). -/
inductive GCode
  | ok
  | notFound
  | alreadyExists
  | permissionDenied
  | failedPrecondition
  | invalidArgument
  | resourceExhausted
  | unavailable
  | unimplemented
  | canceled
  | unknown
  | deadlineExceeded
  | aborted
  | outOfRange
  | internalErr
  | dataLoss
  | unauthenticated
  deriving DecidableEq

/-- A JSON value, used to model decoded `encoding/json` documents. Numbers
are truncated to their integer part; no claim inspects numeric values. -/
inductive JValue
  | null
  | bool (b : Bool)
  | num (n : Int)
  | str (s : String)
  | arr (elems : List JValue)
  | obj (fields : List (String × JValue))

/-- Modelled from the spec: one capture frame (function, file, line)
of a TraceErr's trace (spec section 3). -/
structure Frame where
  fn : String
  file : String
  line : Int

/-- Modelled from the spec: `RawTrace`, the wire mirror of TraceErr where
the nested error is carried as undecoded raw bytes (spec section 3).  The
raw bytes of the nested error are modelled as the JSON value they parse to
(`none` for absent/empty bytes). -/
structure RawTrace where
  err : Option JValue := none
  traces : List Frame := []
  message : String := ""
  messages : List String := []
  fields : List (String × JValue) := []

/-- The Go `error` values this library manipulates.  `typed` is a concrete
TypedError (modelled from the spec: each instance carries a human-readable
message; the optional structured field map of a TypedError is inspected by
no claim and is omitted).  `traceErr` is `*trace.TraceErr` with its five
fields; `aggregate` is the concrete aggregate of sub-errors; `raw` is
`*trace.RawTrace` used as an error; `grpcStatus` is a native gRPC status
error; `eof` is `io.EOF`; `osNotExist` is an error for which
`os.IsNotExist` holds; `external` is any other error, identified by its
`Error()` text. -/
inductive GoError
  | typed (k : TypedKind) (message : String)
  | traceErr (traces : List Frame) (err : GoError) (message : String)
      (messages : List String) (fields : List (String × JValue))
  | aggregate (errs : List GoError)
  | raw (r : RawTrace)
  | grpcStatus (code : GCode) (message : String)
  | eof
  | osNotExist
  | external (message : String)

/-- Modelled from the spec: `maxHops`, the fixed upper bound on unwrap
hops in any traversal (spec sections 3 and 4.2).  Its numeric value is not
given by the sources at hand; no claim depends on the exact value. -/
def maxHops : Nat := 32

/-- Modelled from the spec: bounded unwrapping of TraceErr wrappers, at
most `n` hops (spec section 3: traversal must be hop-bounded). -/
def UnwrapN : Nat → GoError → GoError
  | 0, e => e
  | n + 1, e =>
    match e with
    | .traceErr _ inner _ _ _ => UnwrapN n inner
    | _ => e

/-- Modelled from the spec: `trace.Unwrap`, which resolves a wrapped error
to its underlying error within `maxHops` hops. -/
def Unwrap (e : GoError) : GoError := UnwrapN maxHops e

/-- Modelled from the spec: `trace.IsAggregate` — whether the error
unwraps to a value implementing the Aggregate capability. -/
def IsAggregate (e : GoError) : Bool :=
  match Unwrap e with
  | .aggregate _ => true
  | _ => false

/-- Modelled from the spec: the shared bounded kind test behind each
`Is<Kind>` predicate — the error, or any error reachable by unwrapping up
to `n` times, is concretely of kind `k` (spec section 4.1). -/
def hasKindUpTo (k : TypedKind) : Nat → GoError → Bool
  | 0, e =>
    match e with
    | .typed k2 _ => k2 = k
    | _ => false
  | n + 1, e =>
    match e with
    | .typed k2 _ => k2 = k
    | .traceErr _ inner _ _ _ => hasKindUpTo k n inner
    | _ => false

/-- Modelled from the spec: `trace.IsNotFound`.  Besides the kind test it
also accepts `os.IsNotExist` errors along the chain (the `ToGRPC` source
calls its `os.IsNotExist` test a "duplicate check from trace.IsNotFound"). -/
def IsNotFound (e : GoError) : Bool :=
  go maxHops e
where
  go : Nat → GoError → Bool
    | 0, e =>
      match e with
      | .typed k2 _ => k2 = TypedKind.notFound
      | .osNotExist => true
      | _ => false
    | n + 1, e =>
      match e with
      | .typed k2 _ => k2 = TypedKind.notFound
      | .osNotExist => true
      | .traceErr _ inner _ _ _ => go n inner
      | _ => false

/-- Modelled from the spec: `trace.IsBadParameter`. -/
def IsBadParameter (e : GoError) : Bool := hasKindUpTo .badParameter maxHops e

/-- Modelled from the spec: `trace.IsOAuth2`. -/
def IsOAuth2 (e : GoError) : Bool := hasKindUpTo .oauth2 maxHops e

/-- Modelled from the spec: `trace.IsNotImplemented`. -/
def IsNotImplemented (e : GoError) : Bool := hasKindUpTo .notImplemented maxHops e

/-- Modelled from the spec: `trace.IsCompareFailed`. -/
def IsCompareFailed (e : GoError) : Bool := hasKindUpTo .compareFailed maxHops e

/-- Modelled from the spec: `trace.IsAccessDenied`. -/
def IsAccessDenied (e : GoError) : Bool := hasKindUpTo .accessDenied maxHops e

/-- Modelled from the spec: `trace.IsAlreadyExists`. -/
def IsAlreadyExists (e : GoError) : Bool := hasKindUpTo .alreadyExists maxHops e

/-- Modelled from the spec: `trace.IsLimitExceeded`. -/
def IsLimitExceeded (e : GoError) : Bool := hasKindUpTo .limitExceeded maxHops e

/-- Modelled from the spec: `trace.IsConnectionProblem`. -/
def IsConnectionProblem (e : GoError) : Bool := hasKindUpTo .connectionProblem maxHops e

/-- Function `ErrorToCode` (httplib.go lines 31-54): the appropriate HTTP status
code for the provided error, first matching classification winning. -/
def ErrorToCode (err : GoError) : Nat :=
  if IsAggregate err then 504
  else if IsNotFound err then 404
  else if IsBadParameter err || IsOAuth2 err then 400
  else if IsNotImplemented err then 501
  else if IsCompareFailed err then 412
  else if IsAccessDenied err then 403
  else if IsAlreadyExists err then 409
  else if IsLimitExceeded err then 429
  else if IsConnectionProblem err then 504
  else 500

/-- An HTTP response body as handed to `ReadError`: the raw bytes together
with the result of Go's `encoding/json` byte-level parse of those bytes
into a generic JSON document (`none` when the bytes are not valid JSON).
The byte-level parser itself is external library code, so its result is
carried alongside the bytes rather than recomputed. -/
structure Body where
  rawBytes : String
  parsed : Option JValue

/-- Association lookup in a decoded JSON object, first binding winning. -/
def jLookup (key : String) : List (String × JValue) → Option JValue
  | [] => none
  | (k, v) :: rest => if k = key then some v else jLookup key rest

/-- Go `json.Unmarshal` of a JSON document into a `Frame` (modelled from
the spec: a frame carries function, file, line). -/
def decodeFrame : JValue → Option Frame
  | .obj fields =>
    let fnv :=
      match jLookup "function" fields with
      | none => some ""
      | some (.str s) => some s
      | some .null => some ""
      | some _ => none
    let filev :=
      match jLookup "file" fields with
      | none => some ""
      | some (.str s) => some s
      | some .null => some ""
      | some _ => none
    let linev :=
      match jLookup "line" fields with
      | none => some (0 : Int)
      | some (.num n) => some n
      | some .null => some (0 : Int)
      | some _ => none
    match fnv, filev, linev with
    | some a, some b, some c => some ⟨a, b, c⟩
    | _, _, _ => none
  | .null => some ⟨"", "", 0⟩
  | _ => none

/-- Decode every element of a JSON array with `f`, failing if any fails. -/
def decodeList (f : JValue → Option α) : List JValue → Option (List α)
  | [] => some []
  | v :: rest =>
    match f v, decodeList f rest with
    | some a, some l => some (a :: l)
    | _, _ => none

/-- Go `json.Unmarshal` of a JSON document into a zero `RawTrace`
(struct fields are matched by their JSON keys; unknown keys are ignored;
a missing or `null` field keeps the zero value; a type-mismatched field
is an unmarshal error; the nested error field accepts any JSON value,
since it is a `json.RawMessage`). -/
def decodeRawTrace : JValue → Option RawTrace
  | .null => some {}
  | .obj fields =>
    let errv : Option (Option JValue) :=
      match jLookup "error" fields with
      | none => some none
      | some v => some (some v)
    let tracesv :=
      match jLookup "traces" fields with
      | none => some []
      | some .null => some []
      | some (.arr l) => decodeList decodeFrame l
      | some _ => none
    let messagev :=
      match jLookup "message" fields with
      | none => some ""
      | some .null => some ""
      | some (.str s) => some s
      | some _ => none
    let messagesv :=
      match jLookup "messages" fields with
      | none => some []
      | some .null => some []
      | some (.arr l) =>
        decodeList (fun v => match v with | .str s => some s | _ => none) l
      | some _ => none
    let fieldsv :=
      match jLookup "fields" fields with
      | none => some []
      | some .null => some []
      | some (.obj o) => some o
      | some _ => none
    match errv, tracesv, messagev, messagesv, fieldsv with
    | some a, some b, some c, some d, some e => some ⟨a, b, c, d, e⟩
    | _, _, _, _, _ => none
  | _ => none

/-- Go `json.Unmarshal` of a JSON document into the selected target error
value (`json.Unmarshal(data, err)` in `unmarshalError`): a typed error
reads its `message` field; a `RawTrace` target decodes as `RawTrace`;
JSON `null` leaves the target unchanged; other targets never occur in
`ReadError`. -/
def decodeInto (e : GoError) : JValue → Option GoError
  | .null => some e
  | v =>
    match e with
    | .typed k m =>
      match v with
      | .obj fields =>
        match jLookup "message" fields with
        | none => some (.typed k m)
        | some (.str s) => some (.typed k s)
        | some .null => some (.typed k m)
        | some _ => none
      | _ => none
    | .raw _ => (decodeRawTrace v).map .raw
    | _ => none

/-- Function `errorOnInvalidJSON` (httplib.go lines 134-139): a TraceErr with the
input error as Err and the response body as its single aux message. -/
def errorOnInvalidJSON (err : GoError) (responseBody : Body) : GoError :=
  .traceErr [] err "" [responseBody.rawBytes] []

/-- Function `unmarshalError` (httplib.go lines 104-128). -/
def unmarshalError (err : GoError) (responseBody : Body) : GoError :=
  if responseBody.rawBytes = "" then err
  else
    match responseBody.parsed with
    | none => errorOnInvalidJSON err responseBody
    | some doc =>
      match decodeRawTrace doc with
      | none => errorOnInvalidJSON err responseBody
      | some rawt =>
        match rawt.err with
        | some inner =>
          match decodeInto err inner with
          | none => errorOnInvalidJSON err responseBody
          | some e2 =>
            .traceErr rawt.traces e2 rawt.message rawt.messages rawt.fields
        | none =>
          match decodeInto err doc with
          | none => errorOnInvalidJSON err responseBody
          | some e2 => e2

/-- Modelled from the spec: `wrapProxy`, the final step of `ReadError`.
The spec describes `ReadError` as returning the reconstructed error
itself (section 4.3), so this step is the identity. -/
def wrapProxy (e : GoError) : GoError := e

/-- The concrete zero-value error selected by `ReadError`'s status-code
switch (httplib.go lines 64-83). -/
def selectZero (statusCode : Int) : GoError :=
  if statusCode = 404 then .typed .notFound ""
  else if statusCode = 400 then .typed .badParameter ""
  else if statusCode = 501 then .typed .notImplemented ""
  else if statusCode = 412 then .typed .compareFailed ""
  else if statusCode = 403 then .typed .accessDenied ""
  else if statusCode = 409 then .typed .alreadyExists ""
  else if statusCode = 429 then .typed .limitExceeded ""
  else if statusCode = 504 then .typed .connectionProblem ""
  else .raw {}

/-- Function `ReadError` (httplib.go lines 59-85): converts an HTTP status code and
body back to an internal error; `none` when the status does not indicate
an error. -/
def ReadError (statusCode : Int) (respBytes : Body) : Option GoError :=
  if 200 ≤ statusCode ∧ statusCode < 400 then none
  else some (wrapProxy (unmarshalError (selectZero statusCode) respBytes))

/-- JSON whitespace (RFC 8259). -/
def isWsChar (c : Char) : Bool := c = ' ' || c = '\t' || c = '\n' || c = '\r'

/-- Skip leading JSON whitespace. -/
def skipWs : List Char → List Char
  | [] => []
  | c :: rest => if isWsChar c then skipWs rest else c :: rest

/-- Decimal digit. -/
def isDigitChar (c : Char) : Bool := '0' ≤ c && c ≤ '9'

/-- Hexadecimal digit. -/
def isHexChar (c : Char) : Bool :=
  isDigitChar c || ('a' ≤ c && c ≤ 'f') || ('A' ≤ c && c ≤ 'F')

/-- Single-character JSON string escapes. -/
def isSimpleEsc (c : Char) : Bool :=
  c = '"' || c = '\\' || c = '/' || c = 'b' || c = 'f' || c = 'n' || c = 'r' || c = 't'

/-- Consume the remainder of a JSON string literal (the opening quote
already consumed), returning the input after the closing quote. -/
def parseStrBody : List Char → Option (List Char)
  | [] => none
  | c :: rest =>
    if c = '"' then some rest
    else if c = '\\' then
      match rest with
      | [] => none
      | e :: rest2 =>
        if e = 'u' then
          match rest2 with
          | a :: b :: c2 :: d :: r =>
            if isHexChar a && isHexChar b && isHexChar c2 && isHexChar d then
              parseStrBody r
            else none
          | _ => none
        else if isSimpleEsc e then parseStrBody rest2
        else none
    else if 31 < c.toNat then parseStrBody rest
    else none

/-- Consume one or more decimal digits. -/
def parseDigits : List Char → Option (List Char)
  | [] => none
  | c :: rest => if isDigitChar c then some (dropDigits rest) else none
where
  dropDigits : List Char → List Char
    | [] => []
    | c :: rest => if isDigitChar c then dropDigits rest else c :: rest

/-- Consume the optional fraction part of a JSON number. -/
def parseFrac : List Char → Option (List Char)
  | [] => some []
  | c :: rest => if c = '.' then parseDigits rest else some (c :: rest)

/-- Consume the optional exponent part of a JSON number. -/
def parseExp : List Char → Option (List Char)
  | [] => some []
  | c :: rest =>
    if c = 'e' || c = 'E' then
      match rest with
      | [] => none
      | s :: rest2 =>
        if s = '+' || s = '-' then parseDigits rest2 else parseDigits (s :: rest2)
    else some (c :: rest)

/-- Consume a JSON number. -/
def parseNum (cs : List Char) : Option (List Char) :=
  let cs2 := match cs with
    | c :: rest => if c = '-' then rest else c :: rest
    | [] => []
  let intPart : Option (List Char) :=
    match cs2 with
    | [] => none
    | c :: rest =>
      if c = '0' then some rest
      else if isDigitChar c then some (parseDigits.dropDigits rest)
      else none
  match intPart with
  | none => none
  | some r1 =>
    match parseFrac r1 with
    | none => none
    | some r2 => parseExp r2

/-- Require the given literal characters at the head of the input and
return what follows them. -/
def expectChars : List Char → List Char → Option (List Char)
  | [], cs => some cs
  | l :: ls, c :: cs => if c = l then expectChars ls cs else none
  | _ :: _, [] => none

/-- Parser mode: a single value, the members of an object (after its
opening brace, first member expected), or the elements of an array. -/
inductive PMode
  | val
  | members
  | elems

/-- A fuelled recursive-descent recogniser for JSON (RFC 8259); returns
the unconsumed input after one value / member list / element list.  One
unit of fuel is spent per nested parse, so any fuel at least the number
of values and members in the document suffices. -/
def parseJ : Nat → PMode → List Char → Option (List Char)
  | 0, _, _ => none
  | f + 1, .val, cs =>
    match skipWs cs with
    | [] => none
    | c :: rest =>
      if c = '{' then
        match skipWs rest with
        | [] => none
        | c2 :: r2 => if c2 = '}' then some r2 else parseJ f .members (c2 :: r2)
      else if c = '[' then
        match skipWs rest with
        | [] => none
        | c2 :: r2 => if c2 = ']' then some r2 else parseJ f .elems (c2 :: r2)
      else if c = '"' then parseStrBody rest
      else if c = 't' then expectChars ['r', 'u', 'e'] rest
      else if c = 'f' then expectChars ['a', 'l', 's', 'e'] rest
      else if c = 'n' then expectChars ['u', 'l', 'l'] rest
      else parseNum (c :: rest)
  | f + 1, .members, cs =>
    match skipWs cs with
    | [] => none
    | c :: rest =>
      if c = '"' then
        match parseStrBody rest with
        | none => none
        | some r2 =>
          match skipWs r2 with
          | [] => none
          | c2 :: r3 =>
            if c2 = ':' then
              match parseJ f .val r3 with
              | none => none
              | some r4 =>
                match skipWs r4 with
                | [] => none
                | c3 :: r5 =>
                  if c3 = ',' then parseJ f .members r5
                  else if c3 = '}' then some r5
                  else none
            else none
      else none
  | f + 1, .elems, cs =>
    match parseJ f .val cs with
    | none => none
    | some r =>
      match skipWs r with
      | [] => none
      | c :: r2 =>
        if c = ',' then parseJ f .elems r2
        else if c = ']' then some r2
        else none

/-- A string is syntactically valid JSON: it parses as exactly one JSON
value followed only by whitespace.  (Fuel `length + 1` always suffices:
the parser consumes at least one character before each nested parse.) -/
def isValidJson (s : String) : Bool :=
  match parseJ (s.length + 1) .val s.data with
  | some rest => (skipWs rest).isEmpty
  | none => false

/-- The hand-built fallback response body of `replyJSON` (httplib.go line
99): `fmt.Sprintf` of the marshalling failure into a fixed envelope. -/
def fallbackBody (marshalErrMsg : String) : String :=
  "\x7b\"error\": \x7b\"message\": \"internal marshal error: " ++ marshalErrMsg ++ "\"\x7d\x7d"

/-- The wrapping step of `replyJSON` (httplib.go lines 93-96): errors
that are not already a TraceErr are wrapped into one, so the wire shape
is uniform. -/
def wrapObj (err : GoError) : GoError :=
  match err with
  | .traceErr _ _ _ _ _ => err
  | e => .traceErr [] e "" [] []

/-- Function `replyJSON` (httplib.go lines 87-102), returning the written status
code and body.  `marshal` stands for `json.MarshalIndent` together with
any custom `MarshalJSON` methods of the wrapped errors (external code):
it yields either the marshalled bytes or the failure's `Error()` text. -/
def replyJSON (marshal : GoError → Except String String) (code : Nat)
    (err : GoError) : Nat × String :=
  match marshal (wrapObj err) with
  | .ok out => (code, out)
  | .error m => (code, fallbackBody m)

/-- The aggregate-flattening loop of `WriteError` (httplib.go lines
15-26), with its hop budget as fuel; also returns the number of
replacement iterations performed. -/
def flattenLoop : Nat → GoError → GoError × Nat
  | 0, e => (e, 0)
  | n + 1, e =>
    match Unwrap e with
    | .aggregate errs =>
      match errs with
      | [] => (e, 0)
      | e0 :: _ =>
        let r := flattenLoop n e0
        (r.1, r.2 + 1)
    | _ => (e, 0)

/-- Function `WriteError` (httplib.go lines 10-28), returning the written status
code and body. -/
def WriteError (marshal : GoError → Except String String) (err : GoError) :
    Nat × String :=
  if IsAggregate err = false then replyJSON marshal (ErrorToCode err) err
  else
    let e := (flattenLoop maxHops err).1
    replyJSON marshal (ErrorToCode e) e

/-- Modelled from the spec: `UserMessage` — the most specific
human-readable message without stack noise: the TraceErr's override
message if present, else the wrapped error's message, else the error's
default string form (spec section 4.1).  The joined message text of an
aggregate is not specified and is inspected by no claim. -/
def UserMessage : GoError → String
  | .traceErr _ inner m _ _ => if m = "" then UserMessage inner else m
  | .typed _ m => m
  | .raw r => r.message
  | .aggregate _ => "aggregate error"
  | .grpcStatus _ m => m
  | .eof => "EOF"
  | .osNotExist => "file does not exist"
  | .external m => m

/-- Whether `status.FromError` succeeds: the error is a native gRPC status error. -/
def isStatusError : GoError → Bool
  | .grpcStatus _ _ => true
  | _ => false

/-- The result of `status.Convert(err)` for a non-nil error: the status code and message
(an error that is not a status error converts to `Unknown` with the
error's default string form as message). -/
def statusConvert : GoError → GCode × String
  | .grpcStatus c m => (c, m)
  | e => (.unknown, UserMessage e)

/-- The `ToGRPC` type-switch table (the gRPC code for each mapped
TypedError kind; `retry` and `trust` are deliberately unmapped). -/
def kindToCode : TypedKind → Option GCode
  | .accessDenied => some .permissionDenied
  | .alreadyExists => some .alreadyExists
  | .badParameter => some .invalidArgument
  | .compareFailed => some .failedPrecondition
  | .connectionProblem => some .unavailable
  | .limitExceeded => some .resourceExhausted
  | .notFound => some .notFound
  | .notImplemented => some .unimplemented
  | .oauth2 => some .invalidArgument
  | .retry => none
  | .trust => none

/-- The decision the `ToGRPC` traversal callback takes at one visited
error, in the callback's own order: the end-of-stream sentinel returns
the original error; a status error contributes its code; an
`os.IsNotExist` error maps to NotFound; a mapped TypedError kind maps via
the table; anything else is not decisive. -/
inductive Decision
  | original
  | code (c : GCode)

/-- The per-error decision of the `ToGRPC` traversal callback. -/
def toGRPCDecide : GoError → Option Decision
  | .eof => some .original
  | .grpcStatus c _ => some (.code c)
  | .osNotExist => some (.code .notFound)
  | .typed k _ => (kindToCode k).map .code
  | _ => none

/-- One unwrap hop of the traversal (a TraceErr exposes its wrapped
error; nothing else unwraps). -/
def unwrapOnce : GoError → Option GoError
  | .traceErr _ inner _ _ _ => some inner
  | _ => none

/-- Modelled from the spec: `internal.TraverseErr` as used by `ToGRPC` —
walks the unwrap chain up to `maxHops` hops, short-circuiting on the
first decisive hop (spec section 4.4). -/
def walkDecide : Nat → GoError → Option Decision
  | 0, _ => none
  | n + 1, e =>
    match toGRPCDecide e with
    | some d => some d
    | none =>
      match unwrapOnce e with
      | some inner => walkDecide n inner
      | none => none

/-- Function `ToGRPC` (gRPC bridge, lines 184-246): converts an error to a
GRPC-compatible error. -/
def ToGRPC (err : Option GoError) : Option GoError :=
  match err with
  | none => none
  | some e =>
    if isStatusError e then some e
    else
      match walkDecide maxHops e with
      | some .original => some e
      | some (.code c) => some (.grpcStatus c (UserMessage e))
      | none => some (.grpcStatus .unknown (UserMessage e))

/-- A metadata value string, modelled by the outcome of the
`DecodeDebugInfo` pipeline on it: invalid standard base64; valid base64
whose bytes do not JSON-decode into a `RawTrace`; or a decodable payload.
(Both base64 and the byte-level JSON parse are external library code.) -/
inductive Wire
  | badBase64
  | badJSON
  | payload (rawt : RawTrace)

/-- gRPC metadata: a map from keys to lists of value strings. -/
def MD : Type := List (String × List Wire)

/-- Metadata map lookup. -/
def mdLookup (key : String) : MD → Option (List Wire)
  | [] => none
  | (k, v) :: rest => if k = key then some v else mdLookup key rest

/-- Metadata map update. -/
def mdSet (key : String) (v : List Wire) (m : MD) : MD := (key, v) :: m

/-- The constant `DebugReportMetadata`, the metadata key holding debug information. -/
def DebugReportMetadata : String := "trace-debug-report"

/-- Modelled from the spec: `internal.CaptureTraces` captures runtime
stack frames at the current hop; the frames' contents are
environment-dependent and inspected by no claim, so they are modelled as
an unspecified fixed list. -/
def CaptureTraces (_skip : Nat) : List Frame := []

/-- Function `SetDebugInfo` (gRPC bridge, lines 299-310): adds the base64-encoded
JSON serialization of a TraceErr to the metadata; a no-op for non-TraceErr
errors or when marshalling fails.  `encode` stands for `json.Marshal`
plus base64 (external code), yielding the wire string. -/
def SetDebugInfo (encode : GoError → Option Wire) (err : Option GoError)
    (meta : MD) : MD :=
  match err with
  | some (.traceErr ts inner m ms fs) =>
    match encode (.traceErr ts inner m ms fs) with
    | some w => mdSet DebugReportMetadata [w] meta
    | none => meta
  | _ => meta

/-- Function `DecodeDebugInfo` (gRPC bridge, lines 314-334): decodes debug
information from the metadata; every failure degrades to returning the
input error unchanged. -/
def DecodeDebugInfo (err : GoError) (meta : MD) : GoError :=
  if meta.isEmpty then err
  else
    match mdLookup DebugReportMetadata meta with
    | none => err
    | some encoded =>
      match encoded with
      | [w] =>
        match w with
        | .badBase64 => err
        | .badJSON => err
        | .payload rawt =>
          if !rawt.traces.isEmpty && rawt.err.isSome then
            .traceErr rawt.traces err rawt.message [] []
          else err
      | _ => err

/-- The inverse code table of `FromGRPC` (gRPC status code back to the
concrete TypedError kind). -/
def invCodeMap : GCode → Option TypedKind
  | .notFound => some .notFound
  | .alreadyExists => some .alreadyExists
  | .permissionDenied => some .accessDenied
  | .failedPrecondition => some .compareFailed
  | .invalidArgument => some .badParameter
  | .resourceExhausted => some .limitExceeded
  | .unavailable => some .connectionProblem
  | .unimplemented => some .notImplemented
  | _ => none

/-- Whether a value is a `trace.Error` (the `e.(trace.Error)` check in
`FromGRPC`): per the spec, exactly the TraceErr wrappers (section 4.4:
"only if ... the recovered object is itself a TraceErr"). -/
def isTraceError : GoError → Bool
  | .traceErr _ _ _ _ _ => true
  | _ => false

/-- Function `FromGRPC` (gRPC bridge, lines 250-295): converts a gRPC error back
to a trace error, optionally reading debug metadata from `args`. -/
def FromGRPC (err : Option GoError) (args : Option MD) : Option GoError :=
  match err with
  | none => none
  | some e =>
    let code := (statusConvert e).1
    let message := (statusConvert e).2
    if code = .ok then none
    else
      let e2 : GoError :=
        match invCodeMap code with
        | some k => .typed k message
        | none => e
      match args with
      | some meta =>
        let e3 := DecodeDebugInfo e2 meta
        if isTraceError e3 then some e3
        else some (.traceErr (CaptureTraces 1) e3 "" [] [])
      | none => some (.traceErr (CaptureTraces 1) e2 "" [] [])

/-- Modelled from the spec: `trace.NewAggregate` — combines the non-nil
arguments into one error implementing the Aggregate capability; a single
non-nil error is returned directly, none yields nil (spec section 4.2). -/
def NewAggregate (errs : List (Option GoError)) : Option GoError :=
  match errs.filterMap id with
  | [] => none
  | [e] => some e
  | l => some (.aggregate l)

/-- The metadata `Send` ends up holding before the header send (gRPC
bridge, lines 163-169): the incoming metadata, or a fresh empty map, with
debug info attached when debug mode is on. -/
def sendMeta (isDebug : Bool) (encode : GoError → Option Wire)
    (incoming : Option MD) (err : Option GoError) : MD :=
  let meta : MD := match incoming with | some m => m | none => []
  if isDebug then SetDebugInfo encode err meta else meta

/-- Function `Send` (gRPC bridge, lines 162-177): converts the error to a gRPC
error, attaching debug metadata and sending the header when possible.
`isDebug` is the process-wide debug flag (`trace.IsDebug`), `encode` the
serialization used by `SetDebugInfo`, `incoming` the result of
`metadata.FromIncomingContext`, and `sendHeaderErr` the outcome
`grpc.SendHeader` would report for this context (`none` = success) —
the transport itself is external code. -/
def Send (isDebug : Bool) (encode : GoError → Option Wire)
    (incoming : Option MD) (sendHeaderErr : Option GoError)
    (err : Option GoError) : Option GoError :=
  let meta := sendMeta isDebug encode incoming err
  if meta.isEmpty then ToGRPC err
  else
    match sendHeaderErr with
    | some sendErr => NewAggregate [err, some sendErr]
    | none => ToGRPC err

/-- First-match-wins classification over a priority table, as the spec
states the `ErrorToCode` table (section 4.3). -/
def firstMatch : List ((GoError → Bool) × Nat) → Nat → GoError → Nat
  | [], dflt, _ => dflt
  | (p, c) :: rest, dflt, e => if p e then c else firstMatch rest dflt e

/-- The spec's classification table, in its stated priority order:
Aggregate 504; NotFound 404; BadParameter or OAuth2 400; NotImplemented
501; CompareFailed 412; AccessDenied 403; AlreadyExists 409;
LimitExceeded 429; ConnectionProblem 504; else 500. -/
def specClassTable : List ((GoError → Bool) × Nat) :=
  [(IsAggregate, 504),
   (IsNotFound, 404),
   (fun e => IsBadParameter e || IsOAuth2 e, 400),
   (IsNotImplemented, 501),
   (IsCompareFailed, 412),
   (IsAccessDenied, 403),
   (IsAlreadyExists, 409),
   (IsLimitExceeded, 429),
   (IsConnectionProblem, 504)]

/-- Whether an error is an aggregate holding at least one sub-error
(the condition under which the flatten loop keeps going). -/
def aggNonempty : GoError → Bool
  | .aggregate (_ :: _) => true
  | _ => false

/-- A chain of `n` nested self-wrapping aggregates around a leaf error. -/
def nestedAgg : Nat → GoError
  | 0 => .typed .notFound "leaf"
  | n + 1 => .aggregate [nestedAgg n]

/-- The gRPC status code a converted error carries, if it is a status
error. -/
def statusCodeOf : Option GoError → Option GCode
  | some (.grpcStatus c _) => some c
  | _ => none

/-- The gRPC codes covered by the TypedError mapping tables. -/
def mappedCodes : List GCode :=
  [.permissionDenied, .alreadyExists, .invalidArgument, .failedPrecondition,
   .unavailable, .resourceExhausted, .notFound, .unimplemented]

/-- The HTTP status codes of the HTTPBridge table. -/
def httpTableCodes : List Int := [404, 400, 501, 412, 403, 409, 429, 504]

/-- A character that may stand unescaped inside a JSON string literal and
needs no escaping: not a quote, not a backslash, not a control
character. -/
def jsonPlainChar (c : Char) : Bool :=
  c != '"' && c != '\\' && decide (31 < c.toNat)

/-- A marshaller whose failure message contains a quote character, as a
custom `MarshalJSON` method may produce (its error text is arbitrary). -/
def failingMarshal : GoError → Except String String :=
  fun _ => .error "json: error calling MarshalJSON for type *trace.TraceErr: found \" in value"

/-! Helper lemmas. -/

/-- One member of `unmarshalError`'s behaviour used by several claims:
decoding a minimal envelope holding only a message into a typed zero
value yields the typed error carrying that message. -/
theorem unmarshalMinEnv (k : TypedKind) (m raw : String) (h : raw ≠ "") :
    unmarshalError (.typed k "") ⟨raw, some (.obj [("message", .str m)])⟩ = .typed k m := by
  unfold unmarshalError
  rw [if_neg h]
  rfl

/-- The flatten loop never performs more iterations than its fuel. -/
theorem flattenLoop_le : ∀ (n : Nat) (e : GoError), (flattenLoop n e).2 ≤ n := by
  intro n
  induction n with
  | zero => intro e; simp [flattenLoop]
  | succ k ih =>
    intro e
    simp only [flattenLoop]
    split
    · rename_i errs heq
      match errs with
      | [] => simp
      | e0 :: _ => simpa using ih e0
    · simp

/-- Parsing a value that starts with a quote parses a string body. -/
theorem val_string_head (f : Nat) (X : List Char) :
    parseJ (f + 1) .val ('"' :: X) = parseStrBody X := rfl

/-- A leading space before a value is skipped. -/
theorem val_ws (f : Nat) (cs : List Char) :
    parseJ (f + 1) .val (' ' :: cs) = parseJ (f + 1) .val cs := rfl

/-- Parsing a value that starts with an opening brace. -/
theorem val_obj_head (f : Nat) (X : List Char) :
    parseJ (f + 1) .val ('\x7b' :: X) =
      (match skipWs X with
       | [] => none
       | c2 :: r2 => if c2 = '\x7d' then some r2 else parseJ f .members (c2 :: r2)) := rfl

/-- Parsing an object member list that starts with a quoted key. -/
theorem members_head (f : Nat) (X : List Char) :
    parseJ (f + 1) .members ('"' :: X) =
      (match parseStrBody X with
       | none => none
       | some r2 =>
         match skipWs r2 with
         | [] => none
         | c2 :: r3 =>
           if c2 = ':' then
             match parseJ f .val r3 with
             | none => none
             | some r4 =>
               match skipWs r4 with
               | [] => none
               | c3 :: r5 =>
                 if c3 = ',' then parseJ f .members r5
                 else if c3 = '\x7d' then some r5
                 else none
           else none) := rfl

/-- Parsing an object whose member list succeeds. -/
theorem val_obj (f : Nat) (X r2 res : List Char) (c2 : Char)
    (hskip : skipWs X = c2 :: r2) (hne : ¬(c2 = '\x7d'))
    (h : parseJ f .members (c2 :: r2) = some res) :
    parseJ (f + 1) .val ('\x7b' :: X) = some res := by
  rw [val_obj_head, hskip]
  show (if c2 = '\x7d' then some r2 else parseJ f .members (c2 :: r2)) = some res
  rw [if_neg hne, h]

/-- Parsing a single, final object member. -/
theorem members_one (f : Nat) (X r2 r3 r4 r5 : List Char)
    (h1 : parseStrBody X = some r2)
    (h2 : skipWs r2 = ':' :: r3)
    (h3 : parseJ f .val r3 = some r4)
    (h4 : skipWs r4 = '\x7d' :: r5) :
    parseJ (f + 1) .members ('"' :: X) = some r5 := by
  rw [members_head, h1]
  simp only [h2, h3, h4]
  rfl

/-- A string body made of plain characters ends at the next quote. -/
theorem strBody_clean : ∀ (l rest : List Char), (∀ c ∈ l, jsonPlainChar c = true) →
    parseStrBody (l ++ '"' :: rest) = some rest := by
  intro l
  induction l with
  | nil =>
    intro rest _
    rw [List.nil_append, parseStrBody.eq_def]
    rfl
  | cons c t ih =>
    intro rest h
    have hc := h c (List.mem_cons_self c t)
    simp only [jsonPlainChar, Bool.and_eq_true, bne_iff_ne, ne_eq, decide_eq_true_eq] at hc
    obtain ⟨⟨h1, h2⟩, h3⟩ := hc
    rw [List.cons_append, parseStrBody.eq_def]
    simp only [if_neg h1, if_neg h2, if_pos h3]
    exact ih rest (fun x hx => h x (List.mem_cons_of_mem c hx))

/-- The fallback envelope of `replyJSON` parses as one JSON value with
nothing left over, for any plain-character message and any fuel. -/
theorem fallback_parse (f : Nat) (m : List Char)
    (h : ∀ c ∈ m, jsonPlainChar c = true) :
    parseJ (f + 5) .val
      ('\x7b' :: '"' :: (['e','r','r','o','r'] ++ '"' :: (':' :: ' ' :: '\x7b' ::
        ('"' :: (['m','e','s','s','a','g','e'] ++ '"' :: (':' :: ' ' :: '"' ::
          (['i','n','t','e','r','n','a','l',' ','m','a','r','s','h','a','l',' ',
            'e','r','r','o','r',':',' '] ++ (m ++ ['"', '\x7d', '\x7d']))))))))
    = some [] := by
  have hclean : ∀ c ∈ (['i','n','t','e','r','n','a','l',' ','m','a','r','s','h','a','l',' ',
      'e','r','r','o','r',':',' '] ++ m), jsonPlainChar c = true := by
    have hfixed : ∀ c ∈ (['i','n','t','e','r','n','a','l',' ','m','a','r','s','h','a','l',' ',
        'e','r','r','o','r',':',' '] : List Char), jsonPlainChar c = true := by decide
    intro c hc
    rcases List.mem_append.mp hc with hl | hr
    · exact hfixed c hl
    · exact h c hr
  have hs : parseStrBody
      (['i','n','t','e','r','n','a','l',' ','m','a','r','s','h','a','l',' ',
        'e','r','r','o','r',':',' '] ++ (m ++ ['"', '\x7d', '\x7d'])) = some ['\x7d', '\x7d'] := by
    rw [show (['i','n','t','e','r','n','a','l',' ','m','a','r','s','h','a','l',' ',
        'e','r','r','o','r',':',' '] ++ (m ++ ['"', '\x7d', '\x7d']))
      = (['i','n','t','e','r','n','a','l',' ','m','a','r','s','h','a','l',' ',
        'e','r','r','o','r',':',' '] ++ m) ++ ('"' :: ['\x7d', '\x7d'])
      from (List.append_assoc _ _ _).symm]
    exact strBody_clean _ _ hclean
  have hinnerval : parseJ (f + 1) .val
      (' ' :: '"' :: (['i','n','t','e','r','n','a','l',' ','m','a','r','s','h','a','l',' ',
        'e','r','r','o','r',':',' '] ++ (m ++ ['"', '\x7d', '\x7d']))) = some ['\x7d', '\x7d'] := by
    rw [val_ws, val_string_head]
    exact hs
  have hinnermem : parseJ (f + 2) .members
      ('"' :: (['m','e','s','s','a','g','e'] ++ '"' :: (':' :: ' ' :: '"' ::
        (['i','n','t','e','r','n','a','l',' ','m','a','r','s','h','a','l',' ',
          'e','r','r','o','r',':',' '] ++ (m ++ ['"', '\x7d', '\x7d'])))))
      = some ['\x7d'] := by
    refine members_one (f + 1) _ _ _ _ _ (strBody_clean _ _ (by decide)) rfl hinnerval rfl
  have hinnerobj : parseJ (f + 3) .val
      ('\x7b' :: ('"' :: (['m','e','s','s','a','g','e'] ++ '"' :: (':' :: ' ' :: '"' ::
        (['i','n','t','e','r','n','a','l',' ','m','a','r','s','h','a','l',' ',
          'e','r','r','o','r',':',' '] ++ (m ++ ['"', '\x7d', '\x7d']))))))
      = some ['\x7d'] := by
    exact val_obj (f + 2) _ _ _ _ rfl (by decide) hinnermem
  have houterval : parseJ (f + 3) .val
      (' ' :: '\x7b' :: ('"' :: (['m','e','s','s','a','g','e'] ++ '"' :: (':' :: ' ' :: '"' ::
        (['i','n','t','e','r','n','a','l',' ','m','a','r','s','h','a','l',' ',
          'e','r','r','o','r',':',' '] ++ (m ++ ['"', '\x7d', '\x7d']))))))
      = some ['\x7d'] := by
    rw [val_ws]
    exact hinnerobj
  have houtermem : parseJ (f + 4) .members
      ('"' :: (['e','r','r','o','r'] ++ '"' :: (':' :: ' ' :: '\x7b' ::
        ('"' :: (['m','e','s','s','a','g','e'] ++ '"' :: (':' :: ' ' :: '"' ::
          (['i','n','t','e','r','n','a','l',' ','m','a','r','s','h','a','l',' ',
            'e','r','r','o','r',':',' '] ++ (m ++ ['"', '\x7d', '\x7d']))))))))
      = some [] := by
    refine members_one (f + 3) _ _ _ _ _ (strBody_clean _ _ (by decide)) rfl houterval rfl
  exact val_obj (f + 4) _ _ _ _ rfl (by decide) houtermem

/-! The claims. -/

/-- C1, counterexample: with non-empty metadata and a failing header
send, `Send` does not return `ToGRPC(err)` — it returns the aggregate of
the original error and the send failure instead. -/
theorem send_failure_not_togrpc_counterexample :
    Send false (fun _ => none) (some [("k", [Wire.payload {}])])
      (some (.external "network error")) (some (.typed .notFound "x"))
    ≠ ToGRPC (some (.typed .notFound "x")) := by
  intro h
  exact GoError.noConfusion (Option.some.inj h)

/-- C1 (amended): `Send` returns `ToGRPC(err)` when no header is sent or
the header send succeeds; when the metadata is non-empty and the header
send fails, it returns `NewAggregate(err, sendErr)` — the header-send
failure combined with the original error — instead of `ToGRPC(err)`. -/
theorem send_return_value : ∀ (isDebug : Bool) (encode : GoError → Option Wire)
    (incoming : Option MD) (sendHeaderErr : Option GoError) (err : Option GoError),
    (sendHeaderErr = none →
      Send isDebug encode incoming sendHeaderErr err = ToGRPC err) ∧
    ((sendMeta isDebug encode incoming err).isEmpty = true →
      Send isDebug encode incoming sendHeaderErr err = ToGRPC err) ∧
    (∀ s, sendHeaderErr = some s → (sendMeta isDebug encode incoming err).isEmpty = false →
      Send isDebug encode incoming sendHeaderErr err = NewAggregate [err, some s]) := by
  intro isDebug encode incoming sendHeaderErr err
  refine ⟨?_, ?_, ?_⟩
  · intro h
    subst h
    simp only [Send]
    split <;> rfl
  · intro h
    simp only [Send, h, if_true]
  · intro s hs h
    subst hs
    simp only [Send, h, Bool.false_eq_true, if_false]

/-- C1, witness: the amended statement at a concrete failing send. -/
theorem send_return_value_witness :
    Send false (fun _ => none) (some [("k", [Wire.payload {}])])
      (some (.external "network error")) (some (.typed .notFound "x"))
    = NewAggregate [some (.typed .notFound "x"), some (.external "network error")] :=
  (send_return_value false (fun _ => none) (some [("k", [Wire.payload {}])])
    (some (.external "network error")) (some (.typed .notFound "x"))).2.2
    (.external "network error") rfl rfl

set_option maxRecDepth 4000 in
/-- C2, counterexample: a marshalling failure whose message contains a
quote makes the body written by `WriteError` malformed JSON — the
hand-built fallback is not well-formed for every possible failure
message. -/
theorem writeError_fallback_invalid_json_counterexample :
    isValidJson (WriteError failingMarshal (.typed .notFound "x")).2 = false := by rfl

/-- C2 (amended): when JSON serialization fails, the body `replyJSON`
writes is exactly the minimal hand-built envelope embedding the failure
message, and that fallback is syntactically valid JSON whenever the
failure message contains no quote, backslash, or control character. -/
theorem replyJSON_fallback_well_formed : ∀ (marshal : GoError → Except String String)
    (code : Nat) (err : GoError) (m : String),
    marshal (wrapObj err) = .error m →
    (∀ c ∈ m.data, jsonPlainChar c = true) →
    (replyJSON marshal code err).2 = fallbackBody m ∧
    isValidJson (replyJSON marshal code err).2 = true := by
  intro marshal code err m hm hclean
  have hbody : (replyJSON marshal code err).2 = fallbackBody m := by
    unfold replyJSON
    rw [hm]
  refine ⟨hbody, ?_⟩
  rw [hbody]
  have hp : parseJ ((fallbackBody m).length + 1) .val ((fallbackBody m).data) = some [] := by
    have hlen : (fallbackBody m).length + 1 = (m.length + 46) + 5 := by
      have hd : (fallbackBody m).data.length = m.data.length + 50 := by
        rw [show (fallbackBody m).data =
          ('\x7b' :: '"' :: (['e','r','r','o','r'] ++ '"' :: (':' :: ' ' :: '\x7b' ::
            ('"' :: (['m','e','s','s','a','g','e'] ++ '"' :: (':' :: ' ' :: '"' ::
              (['i','n','t','e','r','n','a','l',' ','m','a','r','s','h','a','l',' ',
                'e','r','r','o','r',':',' '] ++ (m.data ++ ['"', '\x7d', '\x7d']))))))))
          from rfl]
        simp [List.length_append]
      show (fallbackBody m).data.length + 1 = (m.data.length + 46) + 5
      omega
    rw [hlen]
    exact fallback_parse (m.length + 46) m.data hclean
  unfold isValidJson
  rw [hp]
  rfl

/-- C2, witness: the amended statement at a concrete plain failure
message. -/
theorem replyJSON_fallback_well_formed_witness :
    (replyJSON (fun _ => .error "boom") 500 (.typed .notFound "x")).2 = fallbackBody "boom" ∧
    isValidJson (replyJSON (fun _ => .error "boom") 500 (.typed .notFound "x")).2 = true :=
  replyJSON_fallback_well_formed (fun _ => .error "boom") 500 (.typed .notFound "x") "boom"
    rfl (by decide)

/-- C3, counterexample: for an error with an unmapped gRPC code and no
metadata, `FromGRPC` does not pass the original error through unchanged. -/
theorem fromGRPC_unmapped_not_unchanged_counterexample :
    FromGRPC (some (.grpcStatus .canceled "boom")) none
    ≠ some (.grpcStatus .canceled "boom") := by
  intro h
  exact GoError.noConfusion (Option.some.inj h)

/-- C3 (amended): for every non-nil error whose converted status code is
outside the inverse mapping table and is not OK, with no metadata
supplied, `FromGRPC` returns a fresh TraceErr (with freshly captured
frames) whose nested Err is the original error unchanged, rather than
the original error itself. -/
theorem fromGRPC_unmapped_wraps_original : ∀ (e : GoError),
    invCodeMap (statusConvert e).1 = none → (statusConvert e).1 ≠ GCode.ok →
    FromGRPC (some e) none = some (.traceErr (CaptureTraces 1) e "" [] []) := by
  intro e h1 h2
  simp only [FromGRPC, h1, h2, if_false, ite_false]

/-- C3, witness: the amended statement at a concrete unmapped code. -/
theorem fromGRPC_unmapped_wraps_original_witness :
    FromGRPC (some (.grpcStatus .deadlineExceeded "t")) none
    = some (.traceErr (CaptureTraces 1) (.grpcStatus .deadlineExceeded "t") "" [] []) :=
  fromGRPC_unmapped_wraps_original (.grpcStatus .deadlineExceeded "t") rfl (by decide)

/-- C4: `ErrorToCode` agrees, on every error, with the spec's
classification table checked in its stated priority order with first
match winning: Aggregate 504, NotFound 404, BadParameter or OAuth2 400,
NotImplemented 501, CompareFailed 412, AccessDenied 403, AlreadyExists
409, LimitExceeded 429, ConnectionProblem 504, else 500. -/
theorem errorToCode_matches_spec_table :
    ∀ e, ErrorToCode e = firstMatch specClassTable 500 e := fun _ => rfl

/-- C5: for every status code of the HTTPBridge table and every non-empty
body encoding the matching kind's minimal envelope, `ErrorToCode`
composed with `ReadError` reproduces the status code. -/
theorem readError_errorToCode_round_trip : ∀ (code : Int) (m : String) (b : Body),
    code ∈ httpTableCodes → b.rawBytes ≠ "" →
    b.parsed = some (.obj [("message", .str m)]) →
    Option.map (fun e => ((ErrorToCode e : Nat) : Int)) (ReadError code b) = some code := by
  intro code m b hc hraw hp
  obtain ⟨raw, parsed⟩ := b
  subst hp
  simp only [httpTableCodes] at hc
  fin_cases hc
  · unfold ReadError
    rw [if_neg (by norm_num)]
    rw [show selectZero 404 = GoError.typed .notFound "" from rfl]
    rw [unmarshalMinEnv _ _ _ hraw]
    rfl
  · unfold ReadError
    rw [if_neg (by norm_num)]
    rw [show selectZero 400 = GoError.typed .badParameter "" from rfl]
    rw [unmarshalMinEnv _ _ _ hraw]
    rfl
  · unfold ReadError
    rw [if_neg (by norm_num)]
    rw [show selectZero 501 = GoError.typed .notImplemented "" from rfl]
    rw [unmarshalMinEnv _ _ _ hraw]
    rfl
  · unfold ReadError
    rw [if_neg (by norm_num)]
    rw [show selectZero 412 = GoError.typed .compareFailed "" from rfl]
    rw [unmarshalMinEnv _ _ _ hraw]
    rfl
  · unfold ReadError
    rw [if_neg (by norm_num)]
    rw [show selectZero 403 = GoError.typed .accessDenied "" from rfl]
    rw [unmarshalMinEnv _ _ _ hraw]
    rfl
  · unfold ReadError
    rw [if_neg (by norm_num)]
    rw [show selectZero 409 = GoError.typed .alreadyExists "" from rfl]
    rw [unmarshalMinEnv _ _ _ hraw]
    rfl
  · unfold ReadError
    rw [if_neg (by norm_num)]
    rw [show selectZero 429 = GoError.typed .limitExceeded "" from rfl]
    rw [unmarshalMinEnv _ _ _ hraw]
    rfl
  · unfold ReadError
    rw [if_neg (by norm_num)]
    rw [show selectZero 504 = GoError.typed .connectionProblem "" from rfl]
    rw [unmarshalMinEnv _ _ _ hraw]
    rfl

/-- C5, witness: status 404 with the minimal envelope reproduces 404. -/
theorem readError_errorToCode_round_trip_witness :
    Option.map (fun e => ((ErrorToCode e : Nat) : Int))
      (ReadError 404 ⟨"\x7b\"message\":\"x\"\x7d", some (.obj [("message", .str "x")])⟩)
    = some 404 :=
  readError_errorToCode_round_trip 404 "x"
    ⟨"\x7b\"message\":\"x\"\x7d", some (.obj [("message", .str "x")])⟩
    (by decide) (by decide) rfl

/-- C6: for every mapped TypedError kind's gRPC code, converting a status
error with that code through `FromGRPC` and back through `ToGRPC` yields
a status error with the same code. -/
theorem togrpc_fromgrpc_code_round_trip : ∀ (c : GCode) (m : String), c ∈ mappedCodes →
    statusCodeOf (ToGRPC (FromGRPC (some (.grpcStatus c m)) none)) = some c := by
  intro c m h
  fin_cases h <;> rfl

/-- C6, witness: the round trip at PermissionDenied. -/
theorem togrpc_fromgrpc_code_round_trip_witness :
    statusCodeOf (ToGRPC (FromGRPC (some (.grpcStatus .permissionDenied "m")) none))
    = some GCode.permissionDenied :=
  togrpc_fromgrpc_code_round_trip .permissionDenied "m" (by decide)

/-- C7: for every error status code and every non-empty body that does
not parse as JSON, `ReadError` returns the invalid-JSON fallback: a
TraceErr around the selected zero value whose Messages list is exactly
the single raw body string. -/
theorem readError_invalid_json_fallback : ∀ (code : Int) (b : Body),
    ¬(200 ≤ code ∧ code < 400) → b.rawBytes ≠ "" → b.parsed = none →
    ReadError code b = some (.traceErr [] (selectZero code) "" [b.rawBytes] []) := by
  intro code b hc hraw hp
  obtain ⟨raw, parsed⟩ := b
  subst hp
  simp only [ReadError, hc, if_false, wrapProxy, unmarshalError, errorOnInvalidJSON] at *
  rw [if_neg hraw]

/-- C7, witness: `ReadError 418 "not json"` yields the fallback whose
Messages list is exactly the raw body. -/
theorem readError_invalid_json_fallback_witness :
    ReadError 418 ⟨"not json", none⟩
    = some (.traceErr [] (.raw {}) "" ["not json"] []) :=
  readError_invalid_json_fallback 418 ⟨"not json", none⟩ (by decide) (by decide) rfl

/-- C8: the flatten loop of `WriteError` performs at most `maxHops`
replacement iterations on every error; it stops immediately when the
unwrapped error is not an aggregate holding at least one sub-error; and
on a chain of `maxHops + 5` nested self-wrapping aggregates it
terminates after exactly `maxHops` iterations. -/
theorem flatten_terminates_within_maxHops :
    (∀ e, (flattenLoop maxHops e).2 ≤ maxHops) ∧
    (∀ e, aggNonempty (Unwrap e) = false → flattenLoop maxHops e = (e, 0)) ∧
    flattenLoop maxHops (nestedAgg (maxHops + 5)) = (nestedAgg 5, maxHops) := by
  refine ⟨fun e => flattenLoop_le maxHops e, ?_, rfl⟩
  intro e h
  show flattenLoop (31 + 1) e = (e, 0)
  simp only [flattenLoop]
  split
  · rename_i errs heq
    match errs with
    | [] => rfl
    | e0 :: _ => rw [heq] at h; simp [aggNonempty] at h
  · rfl

/-- C8, witness: the bound at the deep chain, and the early stop at a
non-aggregate. -/
theorem flatten_terminates_within_maxHops_witness :
    (flattenLoop maxHops (nestedAgg (maxHops + 5))).2 ≤ maxHops ∧
    flattenLoop maxHops GoError.eof = (GoError.eof, 0) :=
  ⟨flatten_terminates_within_maxHops.1 (nestedAgg (maxHops + 5)),
   flatten_terminates_within_maxHops.2.1 GoError.eof (by decide)⟩

/-- C9: the nil-returning window of `ReadError` is exactly the codes in
[200, 400); every status code strictly below 200 yields a non-nil error
reconstructed through the generic RawTrace fallback branch. -/
theorem readError_nil_window : ∀ (code : Int) (b : Body),
    (ReadError code b = none ↔ 200 ≤ code ∧ code < 400) ∧
    (code < 200 → ReadError code b = some (unmarshalError (.raw {}) b)) := by
  intro code b
  constructor
  · unfold ReadError
    split
    · simpa
    · rename_i h
      simp
      omega
  · intro h
    have hz : selectZero code = .raw {} := by
      unfold selectZero
      split_ifs <;> first | rfl | omega
    unfold ReadError
    rw [if_neg (by omega), hz]
    rfl

/-- C9, witness: status 100 is reconstructed via the RawTrace branch. -/
theorem readError_nil_window_witness :
    ReadError 100 ⟨"x", none⟩ = some (unmarshalError (.raw {}) ⟨"x", none⟩) :=
  (readError_nil_window 100 ⟨"x", none⟩).2 (by decide)

/-- C10: whenever `DecodeDebugInfo` successfully decodes the metadata
payload (with non-empty Traces and Err), it returns a newly built
TraceErr whose nested Err is the input error — not the error decoded
from the payload — carrying only the payload's Traces and Message; the
payload's nested error bytes, Messages, and Fields are discarded. -/
theorem decodeDebugInfo_wraps_input_error : ∀ (err : GoError) (meta : MD) (rawt : RawTrace),
    mdLookup DebugReportMetadata meta = some [Wire.payload rawt] →
    rawt.traces.isEmpty = false → rawt.err.isSome = true →
    DecodeDebugInfo err meta = .traceErr rawt.traces err rawt.message [] [] := by
  intro err meta rawt hl ht he
  have hm : meta.isEmpty = false := by
    cases meta with
    | nil => simp [mdLookup] at hl
    | cons a l => rfl
  simp only [DecodeDebugInfo, hm, Bool.false_eq_true, if_false, hl, ht, he]
  simp

/-- C10, witness: a concrete decodable payload, whose nested error
bytes, aux messages and fields are discarded while its traces and
message are carried over around the input error. -/
theorem decodeDebugInfo_wraps_input_error_witness :
    DecodeDebugInfo (.typed .notFound "x")
      [(DebugReportMetadata, [Wire.payload ⟨some .null, [⟨"f", "g", 1⟩], "msg", ["aux"], []⟩])]
    = .traceErr [⟨"f", "g", 1⟩] (.typed .notFound "x") "msg" [] [] :=
  decodeDebugInfo_wraps_input_error (.typed .notFound "x")
    [(DebugReportMetadata, [Wire.payload ⟨some .null, [⟨"f", "g", 1⟩], "msg", ["aux"], []⟩])]
    ⟨some .null, [⟨"f", "g", 1⟩], "msg", ["aux"], []⟩ rfl rfl rfl

end Trace
